import Mathlib

/-!
Verification of the identifier core of the lico repository (an OpenID-Connect
provider front end).  The development shallowly embeds the two source files:

* `src/identifier/handlers.go` — the security middleware (`secureHandler`) and
  the Hello / Logon / Logoff / Consent orchestrator handlers, modelled over
  Lean `String`s.  External collaborators that are not part of the sources
  (cookie codec, client registry, backend contract results, the JSON decode
  and `parse()` steps) enter as explicit inputs of the model.
* `src/identifier/backends/ldap.go` — the directory backend, modelled over
  byte strings (`List (Fin 256)`), including a faithful model of Go's
  `url.Values.Encode` / `url.ParseQuery` pair used by the reversible
  entry-ID encoding.
-/

namespace Lico

/-! ## Identifier data model (handlers.go)

An `IdentifiedUser` as used by the handlers: subject, username and display
name.  The full Go struct lives outside src; these are the fields the
handlers read (`Subject()`, `Username()`, `Name()`), per spec section 3. -/

structure IdentifiedUser where
  sub : String
  username : String
  name : String
deriving DecidableEq, Repr

/-- ClientDetails as read by `newHelloResponse`: only the `Trusted` flag is
consulted; the record is also echoed into the response. -/
structure ClientDetails where
  trusted : Bool
deriving DecidableEq, Repr

/-- Modelled from the spec: the OIDC prompt value "none" (constant defined in
the oidc package, outside src). -/
def PromptNone : String := "none"

/-- Modelled from the spec: the OIDC prompt value "login". -/
def PromptLogin : String := "login"

/-- Modelled from the spec: the OIDC prompt value "consent". -/
def PromptConsent : String := "consent"

/-- Modelled from the spec: the flow kind for plain OAuth (constant defined
outside src; only its distinctness matters). -/
def FlowOAuth : String := "oauth"

/-- Modelled from the spec: the flow kind for the explicit consent flow. -/
def FlowConsent : String := "consent"

/-- Modelled from the spec: the flow kind for OIDC. -/
def FlowOIDC : String := "oidc"

/-- Parsed Hello request, after JSON decode and `parse()`: opaque client
state, the prompt set (`r.Prompts`, modelled as the list of prompt values
present), the flow kind, the requested scopes, client ID and redirect URI. -/
structure HelloRequest where
  state : String
  prompts : List String
  flow : String
  scopes : List String
  clientID : String
  redirectURI : String
deriving DecidableEq, Repr

/-- Hello response fields, with Go zero values as defaults. -/
structure HelloResponse where
  state : String
  success : Bool := false
  username : String := ""
  displayName : String := ""
  next : String := ""
  requestedScopes : List String := []
  clientDetails : Option ClientDetails := none
  continueURI : String := ""
  flow : String := ""
deriving DecidableEq, Repr

/-- Identity-resolution loop of `Identifier.newHelloResponse` (handlers.go
lines 362-402, the `handleHelloLoop` after the prompt-none case):
`identifiedUser` is the caller-passed user (nil from `handleHello`, the
freshly authenticated user from `handleLogon`); `cookieUser` is the result
of `GetUserFromLogonCookie` (a decode error is logged and leaves the user
nil, so it is folded into `none`); `forwardedUser` is the
`X-Forwarded-User` header value ("" when absent).  The returned Bool
records whether the logon-cookie decode path was consulted. -/
def helloIdentityStage (r : HelloRequest) (identifiedUser : Option IdentifiedUser)
    (cookieUser : Option IdentifiedUser) (forwardedUser : String) : HelloResponse × Bool :=
  if r.prompts.contains PromptLogin then
    -- Ignore all potential sources, when prompt login was requested.
    ({ state := r.state }, false)
  else
    let src : Option IdentifiedUser × Bool :=
      match identifiedUser with
      | some u => (some u, false)
      | none => (cookieUser, true)
    let resp0 : HelloResponse := { state := r.state }
    let resp1 : HelloResponse :=
      match src.1 with
      | some u =>
        { resp0 with
          username := u.username
          displayName := u.name
          success := u.username ≠ "" }
      | none => resp0
    if resp1.success then (resp1, src.2)
    else if forwardedUser ≠ "" then
      -- Frontend proxy injected auth (Eg. Kerberos/NTLM).
      ({ resp1 with username := forwardedUser, success := true }, src.2)
    else (resp1, src.2)

/-- Model of `Identifier.newHelloResponse` (handlers.go lines 356-445):
the prompt-none rejection, the identity-resolution loop, and the flow
handling.  `clientLookup` is the result of
`i.clients.Lookup(ctx, r.ClientID, r.RedirectURI)` and
`authorizationEndpointURI` is `i.authorizationEndpointURI.String()`. -/
def newHelloResponse (r : HelloRequest) (identifiedUser : Option IdentifiedUser)
    (cookieUser : Option IdentifiedUser) (forwardedUser : String)
    (clientLookup : Except String ClientDetails) (authorizationEndpointURI : String) :
    Except String (HelloResponse × Bool) :=
  if r.prompts.contains PromptNone then
    -- Never show sign-in, directly return error.
    Except.error "prompt none requested"
  else
    let stage : HelloResponse × Bool :=
      helloIdentityStage r identifiedUser cookieUser forwardedUser
    if stage.1.success = false then Except.ok stage
    else if r.flow = FlowOAuth ∨ r.flow = FlowConsent ∨ r.flow = FlowOIDC then
      match clientLookup with
      | Except.error e => Except.error e
      | Except.ok clientDetails =>
        let promptConsent := r.prompts.contains PromptConsent || !clientDetails.trusted
        let resp2 :=
          if promptConsent then
            { stage.1 with
              next := FlowConsent
              requestedScopes := r.scopes
              clientDetails := some clientDetails }
          else stage.1
        Except.ok ({ resp2 with
          continueURI := authorizationEndpointURI
          flow := r.flow }, stage.2)
    else Except.ok stage

/-- Outcome of an identifier HTTP handler, as seen on the wire. -/
inductive HelloOutcome where
  | badRequest (msg : String)
  | noContent (state : String)
  | ok (resp : HelloResponse)
deriving DecidableEq, Repr

/-- Model of `Identifier.handleHello` (handlers.go lines 320-354), after a
successful JSON decode and `parse()` (a failure of either yields a 400 error
page upstream of the logic modelled here). -/
def handleHello (r : HelloRequest) (cookieUser : Option IdentifiedUser)
    (forwardedUser : String) (clientLookup : Except String ClientDetails)
    (authorizationEndpointURI : String) : HelloOutcome :=
  match newHelloResponse r none cookieUser forwardedUser clientLookup authorizationEndpointURI with
  | Except.error msg => HelloOutcome.badRequest msg
  | Except.ok stage =>
    if stage.1.success then HelloOutcome.ok stage.1
    else HelloOutcome.noContent r.state

/-! ## Security middleware (handlers.go lines 50-120) -/

/-- Result of the security middleware: either the wrapped handler runs, or
the request is rejected with a 400 error page. -/
inductive SecureResult where
  | served
  | blocked
deriving DecidableEq, Repr

/-- Model of `Identifier.secureHandler`.  `parseHost` abstracts
`url.Parse` composed with the `.Host` projection: `none` models a parse
error, `some h` a successfully parsed URL with host `h`.  `host` is
`req.Host`, `xsrf` the `Kopano-Konnect-XSRF` header value, `origin` and
`referer` the respective header values ("" when absent).

The Go source contains a final else branch that only logs a warning when
both Origin and Referer are absent and then serves the request; that branch
is unreachable, because the earlier check already rejects exactly when both
are absent.  The model mirrors the checks in source order. -/
def secureHandler (parseHost : String → Option String) (host xsrf origin referer : String) :
    SecureResult :=
  if xsrf ≠ "1" then SecureResult.blocked
  else if origin = "" ∧ referer = "" then SecureResult.blocked
  else if origin ≠ "" then
    match parseHost origin with
    | none => SecureResult.blocked
    | some originHost =>
      if originHost ≠ host then SecureResult.blocked else SecureResult.served
  else
    match parseHost referer with
    | none => SecureResult.blocked
    | some refererHost =>
      if refererHost ≠ host then SecureResult.blocked else SecureResult.served

/-! ## Logon handler (handlers.go lines 122-249) -/

/-- Parsed Logon request: opaque state, the params array
`[username, password, mode]`, and the optional nested Hello sub-request. -/
structure LogonRequest where
  state : String
  params : List String
  hello : Option HelloRequest
deriving DecidableEq, Repr

/-- Result triple of `i.backend.Logon(ctx, params[0], params[1])` as used by
`handleLogon`: success flag, subject pointer, error. -/
structure BackendLogonResult where
  success : Bool
  subject : Option String
  err : Option String
deriving DecidableEq, Repr

/-- Collaborator inputs of one `handleLogon` invocation.

`cookieUser` is the `GetUserFromLogonCookie` result (decode errors are
logged and leave it nil, hence folded into `none`); `forwardedUser` the
`X-Forwarded-User` header; `resolveResult` the `i.resolveUser` outcome —
modelled from the spec (resolve lives outside src): a backend error, or an
optional resolved user; `backendLogon` the backend credential check result;
`updateUser` the best-effort profile refresh `i.updateUser` — modelled from
the spec: it only mutates the user's attributes and its errors are swallowed,
so it is a total function on users; `helloParseOk` whether the nested hello's
`parse()` succeeds; `clientLookup` and `authorizationEndpointURI` as in
`newHelloResponse`; `setCookieOk` whether `setLogonCookie` succeeds. -/
structure LogonEnv where
  cookieUser : Option IdentifiedUser
  forwardedUser : String
  resolveResult : Except String (Option IdentifiedUser)
  backendLogon : BackendLogonResult
  updateUser : IdentifiedUser → IdentifiedUser
  helloParseOk : Bool
  clientLookup : Except String ClientDetails
  authorizationEndpointURI : String
  setCookieOk : Bool

/-- Outcome of `handleLogon` on the wire.  `noContent` carries the echoed
client state (the `Kopano-Konnect-State` header of the 204 response). -/
inductive LogonOutcome where
  | errorPage (status : Nat)
  | noContent (state : String)
  | ok (state : String) (hello : Option HelloResponse)
deriving DecidableEq, Repr

/-- Full observable result of `handleLogon`: wire outcome, whether
`i.backend.Logon` was invoked, and whether a logon cookie was written. -/
structure LogonResult where
  outcome : LogonOutcome
  backendCalled : Bool
  cookieSet : Bool
deriving DecidableEq, Repr

/-- Checked index into the params array: Go `params[i]` panics when out of
bounds, modelled as `Except.error ()`. -/
def pidx (params : List String) (i : Nat) : Except Unit String :=
  match params[i]? with
  | some v => Except.ok v
  | none => Except.error ()

/-- Result of the user-resolution loop of `handleLogon` (the `for` loop over
`params`, lines 141-196): either a fatal 500 (backend error) or an optional
resolved user.  The Bool records whether `i.backend.Logon` was called. -/
inductive LogonPhase where
  | fatal (backendCalled : Bool)
  | user (u : Option IdentifiedUser) (backendCalled : Bool)
deriving Repr

/-- Model of the user-resolution loop of `handleLogon`, with every params
access performed through `pidx` exactly where the Go code indexes, guarded as
in the source.  Branch order follows the source: passive cookie reuse, then
proxy-injected user, then empty password, then backend credential check. -/
def logonUserPhase (params : List String) (env : LogonEnv) : Except Unit LogonPhase := do
  -- Branch 1: passive cookie reuse (params[1] == "" && params[2] == "1").
  if params.length ≥ 3 then
    let p1 ← pidx params 1
    let p2 ← pidx params 2
    if p1 = "" ∧ p2 = "1" then
      let p0 ← pidx params 0
      match env.cookieUser with
      | some identifiedUser =>
        if identifiedUser.username = p0 then
          return LogonPhase.user (some identifiedUser) false
      | none => pure ()
  -- Branch 2: frontend proxy injected auth.
  if env.forwardedUser ≠ "" then
    if params.length ≥ 1 then
      let p0 ← pidx params 0
      if env.forwardedUser = p0 then
        match env.resolveResult with
        | Except.error _ => return LogonPhase.fatal false
        | Except.ok u => return LogonPhase.user u false
      else
        return LogonPhase.user none false
    else
      return LogonPhase.user none false
  -- Branch 3: empty password, stop here.
  if params.length ≥ 2 then
    let p1 ← pidx params 1
    if p1 = "" then
      return LogonPhase.user none false
  -- Branch 4: username and password.
  if params.length ≥ 3 then
    let p2 ← pidx params 2
    if p2 = "1" then
      let p0 ← pidx params 0
      let _p1 ← pidx params 1
      match env.backendLogon.err with
      | some _ => return LogonPhase.fatal true
      | none =>
        if env.backendLogon.success then
          match env.backendLogon.subject with
          | some s => return LogonPhase.user (some ⟨s, p0, ""⟩) true
          | none => Except.error ()
        else
          return LogonPhase.user none true
  -- Final break: no branch matched.
  return LogonPhase.user none false

/-- Model of `handleLogon` after the user-resolution loop (lines 198-248):
the empty-subject check, the best-effort profile refresh, the nested Hello
evaluation, cookie minting and the final response. -/
def logonFinish (r : LogonRequest) (env : LogonEnv) : LogonPhase → LogonResult
  | LogonPhase.fatal bc => ⟨LogonOutcome.errorPage 500, bc, false⟩
  | LogonPhase.user none bc => ⟨LogonOutcome.noContent r.state, bc, false⟩
  | LogonPhase.user (some u0) bc =>
    if u0.sub = "" then ⟨LogonOutcome.noContent r.state, bc, false⟩
    else
      let u := env.updateUser u0
      match r.hello with
      | some hr =>
        if env.helloParseOk = false then ⟨LogonOutcome.errorPage 400, bc, false⟩
        else
          match newHelloResponse hr (some u) env.cookieUser env.forwardedUser
              env.clientLookup env.authorizationEndpointURI with
          | Except.error _ => ⟨LogonOutcome.errorPage 400, bc, false⟩
          | Except.ok stage =>
            if stage.1.success = false then ⟨LogonOutcome.noContent r.state, bc, false⟩
            else if env.setCookieOk then
              ⟨LogonOutcome.ok r.state (some stage.1), bc, true⟩
            else ⟨LogonOutcome.errorPage 500, bc, false⟩
      | none =>
        if env.setCookieOk then ⟨LogonOutcome.ok r.state none, bc, true⟩
        else ⟨LogonOutcome.errorPage 500, bc, false⟩

/-- Model of `Identifier.handleLogon`, after a successful JSON decode of the
request body; `Except.error ()` models an out-of-bounds params access. -/
def handleLogon (r : LogonRequest) (env : LogonEnv) : Except Unit LogonResult :=
  (logonUserPhase r.params env).map (logonFinish r env)

/-! ## Byte strings

The LDAP backend (ldap.go) manipulates Go strings, which are byte sequences;
the entry-ID encoding escapes individual bytes.  The backend model therefore
works over byte strings. -/

abbrev Byte := Fin 256

abbrev BStr := List Byte

/-- Decide whether a byte is an ASCII digit or letter. -/
def isAlphaNumByte (b : Byte) : Bool :=
  (48 ≤ b.val && b.val ≤ 57) || (65 ≤ b.val && b.val ≤ 90) || (97 ≤ b.val && b.val ≤ 122)

/-- Bytes Go's `url.shouldEscape` leaves alone in a query component:
alphanumerics and the marks `-` `.` `_` `~`. -/
def isUnreservedByte (b : Byte) : Bool :=
  isAlphaNumByte b || b.val == 45 || b.val == 46 || b.val == 95 || b.val == 126

/-- Uppercase hex digit byte for a nibble, as in Go's `upperhex` table. -/
def upperHexDigit (n : Nat) : Byte :=
  if n < 10 then ⟨48 + n % 16, by omega⟩ else ⟨55 + n % 16, by omega⟩

/-- Escape one byte as Go's `url.QueryEscape` does: space becomes `+`,
unreserved bytes pass through, everything else becomes `%XX`. -/
def queryEscapeByte (b : Byte) : BStr :=
  if b.val = 32 then [43]
  else if isUnreservedByte b then [b]
  else [37, upperHexDigit (b.val / 16), upperHexDigit (b.val % 16)]

/-- Model of Go's `url.QueryEscape` over byte strings. -/
def queryEscape : BStr → BStr
  | [] => []
  | b :: rest => queryEscapeByte b ++ queryEscape rest

/-- Hex digit value of a byte (Go's `ishex` / `unhex`). -/
def unhexDigit (b : Byte) : Option Nat :=
  if 48 ≤ b.val ∧ b.val ≤ 57 then some (b.val - 48)
  else if 65 ≤ b.val ∧ b.val ≤ 70 then some (b.val - 55)
  else if 97 ≤ b.val ∧ b.val ≤ 102 then some (b.val - 87)
  else none

/-- Model of Go's `url.QueryUnescape`: `%XX` decodes a byte (two hex digits
required, otherwise an invalid-escape error modelled as `none`), `+` decodes
to space, every other byte passes through. -/
def queryUnescape : BStr → Option BStr
  | [] => some []
  | b :: rest =>
    if b.val = 37 then
      match rest with
      | x :: y :: rest2 =>
        match unhexDigit x, unhexDigit y with
        | some hi, some lo =>
          match queryUnescape rest2 with
          | some t => some (⟨(hi * 16 + lo) % 256, by omega⟩ :: t)
          | none => none
        | _, _ => none
      | _ => none
    else if b.val = 43 then
      match queryUnescape rest with
      | some t => some (⟨32, by omega⟩ :: t)
      | none => none
    else
      match queryUnescape rest with
      | some t => some (b :: t)
      | none => none

/-- Decide whether a byte separates query pairs (Go's
`strings.IndexAny(key, "&;")` in `url.parseQuery`). -/
def isSepByte (b : Byte) : Bool := b.val == 38 || b.val == 59

/-- Split a query string into segments at `&` or `;`, with Go's
`url.parseQuery` loop semantics: the empty query has no segments, a trailing
separator does not open a further segment, consecutive separators yield empty
segments. -/
def splitSegs : BStr → List BStr
  | [] => []
  | b :: rest =>
    if isSepByte b then [] :: splitSegs rest
    else
      match splitSegs rest with
      | [] => [[b]]
      | s :: ss => (b :: s) :: ss

/-- Split a segment at its first `=` into key and value; without `=` the
value is empty (Go's `strings.Index(key, "=")` step). -/
def splitEq : BStr → BStr × BStr
  | [] => ([], [])
  | b :: rest =>
    if b.val = 61 then ([], rest)
    else
      let kv := splitEq rest
      (b :: kv.1, kv.2)

/-- Process the segment list as Go's `url.parseQuery` loop does: skip empty
segments, split each at `=`, unescape key and value.  An unescape error makes
the whole parse fail (`ParseQuery` returns the error, and the only caller in
ldap.go drops the result unless the error is nil). -/
def parsePairs : List BStr → Option (List (BStr × BStr))
  | [] => some []
  | seg :: rest =>
    if seg = [] then parsePairs rest
    else
      let kv := splitEq seg
      match queryUnescape kv.1, queryUnescape kv.2 with
      | some k, some v =>
        match parsePairs rest with
        | some ps => some ((k, v) :: ps)
        | none => none
      | _, _ => none

/-- Model of Go's `url.ParseQuery` over byte strings, as the ordered list of
decoded key/value pairs (`url.Values` keeps per-key order; the pair list
refines the map with the order in which pairs appear in the query). -/
def parseQuery (q : BStr) : Option (List (BStr × BStr)) := parsePairs (splitSegs q)

/-- Encoded segment for one key/value pair: `escape(k)=escape(v)`. -/
def encodeSeg (p : BStr × BStr) : BStr := queryEscape p.1 ++ 61 :: queryEscape p.2

/-- Join encoded segments with `&`, as `url.Values.Encode` does. -/
def encodePairs : List (BStr × BStr) → BStr
  | [] => []
  | [p] => encodeSeg p
  | p :: q :: rest => encodeSeg p ++ 38 :: encodePairs (q :: rest)

/-- Bytewise lexicographic order on byte strings, the order `sort.Strings`
uses inside `url.Values.Encode`. -/
def lexLeB : BStr → BStr → Bool
  | [], _ => true
  | _ :: _, [] => false
  | a :: as, b :: bs =>
    if a.val < b.val then true
    else if b.val < a.val then false
    else lexLeB as bs

/-- Propositional form of `lexLeB`, for `List.insertionSort`. -/
def bstrLe (a b : BStr) : Prop := lexLeB a b = true

instance : DecidableRel bstrLe := fun a b => instDecidableEqBool (lexLeB a b) true

/-- Flatten a key list into key/value pairs, each key paired with each of its
values in order (the nested loops of `url.Values.Encode`). -/
def pairsOfKeys (f : BStr → List BStr) : List BStr → List (BStr × BStr)
  | [] => []
  | k :: ks => (f k).map (fun v => (k, v)) ++ pairsOfKeys f ks

/-- Values associated with key `k` in an ordered pair list, in order — the
multimap reading of a pair list. -/
def mmLookup (ps : List (BStr × BStr)) (k : BStr) : List BStr :=
  (ps.filter (fun p => decide (p.1 = k))).map (fun p => p.2)

/-! ## LDAP data model (ldap.go) -/

/-- Directory attribute of an entry: wire name and value list. -/
structure LdapAttribute where
  name : BStr
  values : List BStr
deriving DecidableEq, Repr

/-- Directory entry: distinguished name and attributes (go-ldap `Entry`). -/
structure LdapEntry where
  dn : BStr
  attributes : List LdapAttribute
deriving DecidableEq, Repr

/-- Model of go-ldap `Entry.GetAttributeValues`: values of the first
attribute whose name matches exactly, else the empty list. -/
def LdapEntry.getAttributeValues (e : LdapEntry) (name : BStr) : List BStr :=
  match e.attributes.find? (fun a => decide (a.name = name)) with
  | some a => a.values
  | none => []

/-- Model of go-ldap `Entry.GetAttributeValue`: first value or "". -/
def LdapEntry.getAttributeValue (e : LdapEntry) (name : BStr) : BStr :=
  (e.getAttributeValues name).headD []

/-- ASCII lowercase of a byte. -/
def toLowerByte (b : Byte) : Byte :=
  if h : 65 ≤ b.val ∧ b.val ≤ 90 then ⟨b.val + 32, by omega⟩ else b

/-- ASCII-level model of Go's `strings.EqualFold` (the claims under
verification do not depend on folding beyond ASCII). -/
def eqFoldB (a b : BStr) : Bool := decide (a.map toLowerByte = b.map toLowerByte)

/-- Error values flowing through the backend: a go-ldap `Error` carrying a
result code, or a code-less error built with `fmt.Errorf`. -/
inductive LdapErr where
  | withCode (code : Nat) (msg : String)
  | generic (msg : String)
deriving DecidableEq, Repr

/-- Model of go-ldap `ldap.IsErrorWithCode`. -/
def isErrorWithCode : LdapErr → Nat → Bool
  | LdapErr.withCode c _, code => c == code
  | LdapErr.generic _, _ => false

/-- LDAP result code 32, NoSuchObject. -/
def LDAPResultNoSuchObject : Nat := 32

/-- LDAP result code 49, InvalidCredentials. -/
def LDAPResultInvalidCredentials : Nat := 49

/-- Modelled from the spec: the logical login attribute key of the attribute
mapping (`ldapDefinitions.AttributeLogin`, defined outside src; its concrete
spelling is immaterial, here the bytes of "uid"). -/
def AttributeLogin : BStr := [117, 105, 100]

/-- Directory backend state, restricted to the fields the modelled operations
read: search base, static get-filter, the optional sub-attribute entry-ID
mapping and the attribute mapping.  Connection parameters (address, TLS,
bind credentials, scope, search filter template, timeout, rate limiter) only
shape the network operations, which enter the model as operation results. -/
structure LDAPIdentifierBackend where
  baseDN : BStr
  getFilter : BStr
  entryIDMapping : Option (List BStr)
  attributeMapping : List (BStr × BStr)
deriving DecidableEq, Repr

/-- Go map indexing into the attribute mapping: missing keys yield "". -/
def lookupMapping (m : List (BStr × BStr)) (k : BStr) : BStr :=
  match m.find? (fun p => decide (p.1 = k)) with
  | some p => p.2
  | none => []

/-- Modelled from the spec: go-ldap `ldap.ParseDN` validity (outside src).
The spec treats a non-mapped subject ID as the backend's native identifier
directly; no claim under verification depends on DN syntax, so the model
accepts every DN. -/
def ldapParseDNOk (_dn : BStr) : Bool := true

/-- Keys of the `url.Values` map built by `entryIDFromEntry`: the configured
sub-attributes that have at least one value on the entry, deduplicated (map
assignment) and sorted (`url.Values.Encode` sorts its keys). -/
def sortedEntryKeys (mapping : List BStr) (e : LdapEntry) : List BStr :=
  List.insertionSort bstrLe ((mapping.filter (fun k => !(e.getAttributeValues k).isEmpty)).dedup)

/-- Ordered key/value pairs that `url.Values.Encode` serialises for an entry
under the configured sub-attribute mapping. -/
def entryIDPairs (mapping : List BStr) (e : LdapEntry) : List (BStr × BStr) :=
  pairsOfKeys (fun k => e.getAttributeValues k) (sortedEntryKeys mapping e)

/-- Model of `LDAPIdentifierBackend.entryIDFromEntry` (ldap.go lines
563-579): with a sub-attribute mapping the entry ID is the URL-query
encoding of the mapped attribute values; otherwise it is the DN. -/
def entryIDFromEntry (b : LDAPIdentifierBackend) (e : LdapEntry) : BStr :=
  match b.entryIDMapping with
  | some mapping => encodePairs (entryIDPairs mapping e)
  | none => e.dn

/-- Model of `LDAPIdentifierBackend.baseAndGetFilterFromEntryID` (ldap.go
lines 581-605).  Go ranges over the `url.Values` map in unspecified order
when building the filter; the model fixes the order in which the pairs were
parsed.  The byte constants are `(` `)` `=` `&`. -/
def baseAndGetFilterFromEntryID (b : LDAPIdentifierBackend) (entryID : BStr) : BStr × BStr :=
  match b.entryIDMapping with
  | some _ =>
    match parseQuery entryID with
    | some pairs =>
      let filter := pairs.foldl (fun acc p => acc ++ (40 :: (p.1 ++ 61 :: (p.2 ++ [41])))) []
      if filter = [] then ([], [])
      else (b.baseDN, 40 :: 38 :: (b.getFilter ++ filter ++ [41]))
    | none => ([], [])
  | none =>
    if ldapParseDNOk entryID then (entryID, b.getFilter) else ([], [])

/-- Model of `LDAPIdentifierBackend.searchUsername` (ldap.go lines 504-530)
applied to the raw `l.Search` outcome: errors pass through, no entry becomes
a NoSuchObject-coded error, exactly one entry succeeds, more than one entry
is the ambiguity error. -/
def searchUsername (searchResult : Except LdapErr (List LdapEntry)) : Except LdapErr LdapEntry :=
  match searchResult with
  | Except.error e => Except.error e
  | Except.ok entries =>
    match entries with
    | [] => Except.error (LdapErr.withCode LDAPResultNoSuchObject "")
    | [entry] => Except.ok entry
    | _ => Except.error (LdapErr.generic "user too many entries returned")

/-- Return tuple of `LDAPIdentifierBackend.Logon`: success flag, subject,
session reference (always nil for this backend), the backend user-ID claim
(carrying the entry ID), and the error. -/
structure LdapLogonResult where
  success : Bool
  subject : Option BStr
  sessionRef : Option BStr
  claimUserID : Option BStr
  err : Option LdapErr
deriving DecidableEq, Repr

/-- Model of `LDAPIdentifierBackend.Logon` (ldap.go lines 324-372).  The
outcomes of the three network operations are inputs: `connectResult` for
`b.connect`, `searchResult` for the raw `l.Search` inside `searchUsername`,
and `bindResult` for `l.Bind(entry.DN, password)` (`none` is a nil error).
Branch order follows the source. -/
def ldapLogon (b : LDAPIdentifierBackend) (username _password : BStr)
    (connectResult : Except LdapErr Unit)
    (searchResult : Except LdapErr (List LdapEntry))
    (bindResult : Option LdapErr) : LdapLogonResult :=
  let loginAttributeName := lookupMapping b.attributeMapping AttributeLogin
  if loginAttributeName = [] then
    ⟨false, none, none, none,
      some (LdapErr.generic "ldap identifier backend logon impossible as no login attribute is set")⟩
  else
    match connectResult with
    | Except.error _ =>
      ⟨false, none, none, none, some (LdapErr.generic "ldap identifier backend logon connect error")⟩
    | Except.ok _ =>
      match searchUsername searchResult with
      | Except.error e =>
        if isErrorWithCode e LDAPResultNoSuchObject then ⟨false, none, none, none, none⟩
        else ⟨false, none, none, none, some (LdapErr.generic "ldap identifier backend logon search error")⟩
      | Except.ok entry =>
        if eqFoldB (entry.getAttributeValue loginAttributeName) username = false then
          ⟨false, none, none, none,
            some (LdapErr.generic "ldap identifier backend logon search returned wrong user")⟩
        else
          match bindResult with
          | some e =>
            if isErrorWithCode e LDAPResultInvalidCredentials then ⟨false, none, none, none, none⟩
            else ⟨false, none, none, none, some (LdapErr.generic "ldap identifier backend logon error")⟩
          | none =>
            let entryID := entryIDFromEntry b entry
            if entryID = [] then
              ⟨false, none, none, none,
                some (LdapErr.generic "ldap identifier backend logon entry without entry ID")⟩
            else ⟨true, some entryID, none, some entryID, none⟩

/-! ## Derived forms used by the statements -/

/-- Concatenation of the per-pair equality terms `(k=v)` that
`baseAndGetFilterFromEntryID` accumulates with its fold. -/
def eqTerms : List (BStr × BStr) → BStr
  | [] => []
  | p :: rest => (40 :: (p.1 ++ 61 :: (p.2 ++ [41]))) ++ eqTerms rest

/-- Error and non-match discipline of `LDAPIdentifierBackend.Logon`, stated
for one tuple of inputs: success never carries an error; an empty search
result or a raw NoSuchObject search error or an invalid-credentials bind on
the (case-insensitively verified) single match is success=false with nil
error; an ambiguous multi-entry result, a connect error, any other search
error and any other bind error are non-nil errors with success=false. -/
def C1Prop (b : LDAPIdentifierBackend) (username password : BStr)
    (connectResult : Except LdapErr Unit) (searchResult : Except LdapErr (List LdapEntry))
    (bindResult : Option LdapErr) : Prop :=
  let res := ldapLogon b username password connectResult searchResult bindResult
  (res.success = true → res.err = none)
  ∧ (connectResult = Except.ok () → searchResult = Except.ok [] →
      res = ⟨false, none, none, none, none⟩)
  ∧ (∀ e, connectResult = Except.ok () → searchResult = Except.error e →
      isErrorWithCode e LDAPResultNoSuchObject = true →
      res = ⟨false, none, none, none, none⟩)
  ∧ (∀ entry be, connectResult = Except.ok () → searchResult = Except.ok [entry] →
      eqFoldB (entry.getAttributeValue (lookupMapping b.attributeMapping AttributeLogin)) username = true →
      bindResult = some be → isErrorWithCode be LDAPResultInvalidCredentials = true →
      res = ⟨false, none, none, none, none⟩)
  ∧ (∀ e1 e2 rest, connectResult = Except.ok () → searchResult = Except.ok (e1 :: e2 :: rest) →
      res.success = false ∧ res.err ≠ none)
  ∧ (∀ e, connectResult = Except.error e → res.success = false ∧ res.err ≠ none)
  ∧ (∀ e, connectResult = Except.ok () → searchResult = Except.error e →
      isErrorWithCode e LDAPResultNoSuchObject = false →
      res.success = false ∧ res.err ≠ none)
  ∧ (∀ entry be, connectResult = Except.ok () → searchResult = Except.ok [entry] →
      bindResult = some be → isErrorWithCode be LDAPResultInvalidCredentials = false →
      res.success = false ∧ res.err ≠ none)

/-- Round-trip of the sub-attribute entry-ID encoding: parsing the encoded
subject ID yields exactly the serialised pairs, those pairs read back as the
original attribute-to-values multimap, and the get-filter construction wraps
the configured filter with one equality term per pair. -/
def C4Prop (b : LDAPIdentifierBackend) (mapping : List BStr) (e : LdapEntry) : Prop :=
  parseQuery (entryIDFromEntry b e) = some (entryIDPairs mapping e)
  ∧ (∀ k, mmLookup (entryIDPairs mapping e) k =
      if k ∈ mapping ∧ e.getAttributeValues k ≠ [] then e.getAttributeValues k else [])
  ∧ baseAndGetFilterFromEntryID b (entryIDFromEntry b e) =
      (b.baseDN, 40 :: 38 :: (b.getFilter ++ eqTerms (entryIDPairs mapping e) ++ [41]))

/-! ## Concrete sample inputs used by the witnesses and counterexamples -/

/-- Host parser that fails on every input (for counterexamples where the
parse result is irrelevant). -/
def hostNone : String → Option String := fun _ => none

/-- Host parser that returns its input unchanged, standing for an Origin
value that is exactly a host. -/
def hostSelf : String → Option String := fun s => some s

/-- Sample authenticated user. -/
def sampleUser : IdentifiedUser := ⟨"sub1", "alice", "Alice"⟩

/-- Sample trusted client registration. -/
def sampleClient : ClientDetails := ⟨true⟩

/-- Hello request with prompt none. -/
def helloReqNone : HelloRequest := ⟨"state1", [PromptNone], FlowOIDC, [], "client1", "uri1"⟩

/-- Hello request with prompt login. -/
def helloReqLogin : HelloRequest := ⟨"state1", [PromptLogin], FlowOIDC, [], "client1", "uri1"⟩

/-- Hello request with prompts none and login together. -/
def helloReqNoneLogin : HelloRequest :=
  ⟨"state1", [PromptNone, PromptLogin], FlowOIDC, [], "client1", "uri1"⟩

/-- Hello request for the OAuth flow without special prompts. -/
def helloReqOAuth : HelloRequest := ⟨"state1", [], FlowOAuth, ["profile"], "client1", "uri1"⟩

/-- Baseline logon collaborator state: no cookie, no proxy header, a backend
that accepts the credentials with subject "sub1", working cookie sealing. -/
def logonEnvBase : LogonEnv where
  cookieUser := none
  forwardedUser := ""
  resolveResult := Except.ok none
  backendLogon := { success := true, subject := some "sub1", err := none }
  updateUser := fun u => u
  helloParseOk := true
  clientLookup := Except.ok sampleClient
  authorizationEndpointURI := "https://auth.example/authorize"
  setCookieOk := true

/-- Logon collaborator state whose backend reports a transport error. -/
def logonEnvBackendErr : LogonEnv :=
  { logonEnvBase with backendLogon := { success := false, subject := none, err := some "network error" } }

/-- Sample directory backend without sub-attribute mapping. -/
def ldapBackendPlain : LDAPIdentifierBackend :=
  ⟨[100, 99], [70], none, [(AttributeLogin, AttributeLogin)]⟩

/-- Sample directory backend with the login attribute as sub-attribute
mapping. -/
def ldapBackendMapped : LDAPIdentifierBackend :=
  ⟨[100, 99], [70], some [AttributeLogin], [(AttributeLogin, AttributeLogin)]⟩

/-- Sample directory entry: DN "dn", login attribute value "a b" (the space
exercises the `+` escaping). -/
def sampleEntry : LdapEntry := ⟨[100, 110], [⟨AttributeLogin, [[97, 32, 98]]⟩]⟩

/-- Hello response produced for `helloReqOAuth` with `sampleUser` logged in
via cookie and a trusted client. -/
def helloRespOAuth : HelloResponse :=
  { state := "state1"
    success := true
    username := "alice"
    displayName := "Alice"
    continueURI := "https://auth.example/authorize"
    flow := FlowOAuth }

/-! ## Helper lemmas -/

theorem except_pure_def {ε α : Type} (a : α) : (pure a : Except ε α) = Except.ok a := rfl

theorem except_bind_ok {ε α β : Type} (a : α) (f : α → Except ε β) :
    (Except.ok a >>= f : Except ε β) = f a := rfl

theorem except_bind_err {ε α β : Type} (e : ε) (f : α → Except ε β) :
    (Except.error e >>= f : Except ε β) = Except.error e := rfl

/-- Inversion of `Except.map` hitting `ok`. -/
theorem except_map_eq_ok {ε α β : Type} (f : α → β) (x : Except ε α) (b : β)
    (h : x.map f = Except.ok b) : ∃ a, x = Except.ok a ∧ b = f a := by
  match x with
  | Except.error e => exact absurd h (by simp [Except.map])
  | Except.ok a =>
    refine ⟨a, rfl, ?_⟩
    have := Except.ok.inj h
    exact this.symm

/-- With three or more params, a non-empty password and mode flag "1", no
proxy header, the resolution loop reaches the backend credential check and
its outcome is determined by the backend result. -/
theorem logonUserPhase_credentials (a b c : String) (t : List String) (env : LogonEnv)
    (hb : b ≠ "") (hc : c = "1") (hfw : env.forwardedUser = "") :
    logonUserPhase (a :: b :: c :: t) env =
      (match env.backendLogon.err with
       | some _ => Except.ok (LogonPhase.fatal true)
       | none =>
         if env.backendLogon.success then
           match env.backendLogon.subject with
           | some s => Except.ok (LogonPhase.user (some ⟨s, a, ""⟩) true)
           | none => Except.error ()
         else Except.ok (LogonPhase.user none true)) := by
  subst hc
  simp [logonUserPhase, pidx, hb, hfw, except_bind_ok, except_bind_err, except_pure_def]
  try rfl

/-- With fewer than three params and no proxy header, the resolution loop
resolves no user and calls no backend. -/
theorem logonUserPhase_short (params : List String) (env : LogonEnv)
    (hlen : params.length < 3) (hfw : env.forwardedUser = "") :
    logonUserPhase params env = Except.ok (LogonPhase.user none false) := by
  match params with
  | [] => simp [logonUserPhase, pidx, hfw, except_bind_ok, except_bind_err, except_pure_def]
  | [a] =>
    simp [logonUserPhase, pidx, hfw, except_bind_ok, except_bind_err, except_pure_def]
  | [a, b] =>
    by_cases hb : b = "" <;>
      simp [logonUserPhase, pidx, hfw, hb, except_bind_ok, except_bind_err, except_pure_def]
  | a :: b :: c :: t =>
    simp only [List.length_cons] at hlen
    omega

/-- The resolution loop never faults on a params index, for params arrays of
every length (provided the backend honours its contract of returning a
subject on success). -/
theorem logonUserPhase_no_fault (params : List String) (env : LogonEnv)
    (hs : env.backendLogon.success = true → env.backendLogon.subject ≠ none) :
    logonUserPhase params env ≠ Except.error () := by
  match params with
  | [] =>
    simp [logonUserPhase, pidx, except_bind_ok, except_bind_err, except_pure_def]
  | [a] =>
    simp [logonUserPhase, pidx, except_bind_ok, except_bind_err, except_pure_def]
    (repeat' split) <;> simp_all
  | [a, b] =>
    simp [logonUserPhase, pidx, except_bind_ok, except_bind_err, except_pure_def]
    (repeat' split) <;> simp_all
  | a :: b :: c :: t =>
    simp [logonUserPhase, pidx, except_bind_ok, except_bind_err, except_pure_def]
    (repeat' split) <;> simp_all

/-- The backendCalled flag survives `logonFinish` unchanged. -/
theorem logonFinish_backendCalled (r : LogonRequest) (env : LogonEnv) (ph : LogonPhase) :
    (logonFinish r env ph).backendCalled =
      (match ph with
       | LogonPhase.fatal bc => bc
       | LogonPhase.user _ bc => bc) := by
  match ph with
  | LogonPhase.fatal bc => rfl
  | LogonPhase.user none bc => rfl
  | LogonPhase.user (some u0) bc =>
    simp only [logonFinish]
    (repeat' split) <;> rfl

/-! ## Claim theorems: security middleware -/

/-- C6: the security middleware rejects with a 400 error page every request
whose XSRF marker header is not "1" (in particular every request lacking
it), rejects every request whose Origin header parses to a host different
from the request host, and serves a request that carries the marker and
whose Origin host equals the request host. -/
theorem middleware_xsrf_origin_checks (parseHost : String → Option String)
    (host xsrf origin referer originHost : String) :
    (xsrf ≠ "1" → secureHandler parseHost host xsrf origin referer = SecureResult.blocked)
    ∧ (origin ≠ "" → parseHost origin = some originHost → originHost ≠ host →
        secureHandler parseHost host xsrf origin referer = SecureResult.blocked)
    ∧ (xsrf = "1" → origin ≠ "" → parseHost origin = some host →
        secureHandler parseHost host xsrf origin referer = SecureResult.served) := by
  refine ⟨fun hx => ?_, fun ho hp hne => ?_, fun hx ho hp => ?_⟩
  · simp [secureHandler, hx]
  · by_cases hx : xsrf = "1" <;> simp [secureHandler, hx, ho, hp, hne]
  · simp [secureHandler, hx, ho, hp]

/-- Witness for C6 at concrete requests. -/
theorem middleware_xsrf_origin_checks_witness :
    secureHandler hostSelf "h.example" "" "" "" = SecureResult.blocked
    ∧ secureHandler hostSelf "h.example" "1" "evil.example" "ref" = SecureResult.blocked
    ∧ secureHandler hostSelf "h.example" "1" "h.example" "" = SecureResult.served := by
  refine ⟨(middleware_xsrf_origin_checks hostSelf "h.example" "" "" "" "x").1 (by decide),
    (middleware_xsrf_origin_checks hostSelf "h.example" "1" "evil.example" "ref"
      "evil.example").2.1 (by decide) rfl (by decide),
    (middleware_xsrf_origin_checks hostSelf "h.example" "1" "h.example" ""
      "h.example").2.2 rfl (by decide) rfl⟩

/-- C2 counterexample: a request with the XSRF marker but both Origin and
Referer absent is rejected with a 400 error page; the wrapped handler is not
invoked, contrary to the claimed warn-but-serve behaviour. -/
theorem missing_origin_referer_blocked_cex :
    secureHandler hostNone "h.example" "1" "" "" = SecureResult.blocked := by rfl

/-- C2 amended: for every request with both Origin and Referer absent the
middleware rejects with a 400 error page (the warn-only branch of the source
is unreachable), regardless of the XSRF marker. -/
theorem missing_origin_referer_blocks (parseHost : String → Option String)
    (host xsrf origin referer : String) (ho : origin = "") (hr : referer = "") :
    secureHandler parseHost host xsrf origin referer = SecureResult.blocked := by
  subst ho; subst hr
  by_cases hx : xsrf = "1" <;> simp [secureHandler, hx]

/-- Witness for the amended C2 at a concrete request. -/
theorem missing_origin_referer_blocks_witness :
    secureHandler hostSelf "h.example" "1" "" "" = SecureResult.blocked :=
  missing_origin_referer_blocks hostSelf "h.example" "1" "" "" rfl rfl

/-! ## Claim theorems: Hello -/

/-- C3 counterexample: a Hello request with prompt none, with a logged-in
cookie user present, yields a 400 error page, not the claimed success=false
204 response. -/
theorem prompt_none_badrequest_cex :
    handleHello helloReqNone (some sampleUser) "" (Except.ok sampleClient)
      "https://auth.example/authorize" = HelloOutcome.badRequest "prompt none requested" := by
  rfl

/-- C3 amended: a Hello request whose prompts include none always fails,
regardless of cookie state, and the failure is an HTTP error: the handler
responds with a 400 error page, not with a 204 success=false response. -/
theorem prompt_none_always_badrequest (r : HelloRequest) (cookieUser : Option IdentifiedUser)
    (forwardedUser : String) (clientLookup : Except String ClientDetails) (authURI : String)
    (hn : PromptNone ∈ r.prompts) :
    handleHello r cookieUser forwardedUser clientLookup authURI
      = HelloOutcome.badRequest "prompt none requested" := by
  simp [handleHello, newHelloResponse, hn]

/-- Witness for the amended C3 at a concrete request. -/
theorem prompt_none_always_badrequest_witness :
    handleHello helloReqNone none "" (Except.ok sampleClient) "https://auth.example/authorize"
      = HelloOutcome.badRequest "prompt none requested" :=
  prompt_none_always_badrequest helloReqNone none "" (Except.ok sampleClient)
    "https://auth.example/authorize" (by decide)

/-- C7: when the prompts include login, the cookie decode path is skipped
entirely — the result does not depend on the cookie state and carries no
identity and no success, whatever identity sources exist. -/
theorem prompt_login_skips_cookie (r : HelloRequest) (identifiedUser : Option IdentifiedUser)
    (c1 c2 : Option IdentifiedUser) (forwardedUser : String)
    (clientLookup : Except String ClientDetails) (authURI : String)
    (hlogin : PromptLogin ∈ r.prompts) :
    newHelloResponse r identifiedUser c1 forwardedUser clientLookup authURI
      = newHelloResponse r identifiedUser c2 forwardedUser clientLookup authURI
    ∧ (∀ resp cookieRead,
        newHelloResponse r identifiedUser c1 forwardedUser clientLookup authURI
          = Except.ok (resp, cookieRead) →
        cookieRead = false ∧ resp.username = "" ∧ resp.success = false) := by
  by_cases hn : PromptNone ∈ r.prompts <;>
    simp [newHelloResponse, helloIdentityStage, hn, hlogin]

/-- Witness for C7 at a concrete request and two distinct cookie states. -/
theorem prompt_login_skips_cookie_witness :
    newHelloResponse helloReqLogin none (some sampleUser) "" (Except.ok sampleClient)
        "https://auth.example/authorize"
      = newHelloResponse helloReqLogin none none "" (Except.ok sampleClient)
        "https://auth.example/authorize"
    ∧ (false = false ∧ ({ state := "state1" } : HelloResponse).username = ""
        ∧ ({ state := "state1" } : HelloResponse).success = false) :=
  ⟨(prompt_login_skips_cookie helloReqLogin none (some sampleUser) none ""
      (Except.ok sampleClient) "https://auth.example/authorize" (by decide)).1,
    (prompt_login_skips_cookie helloReqLogin none (some sampleUser) none ""
      (Except.ok sampleClient) "https://auth.example/authorize" (by decide)).2
      { state := "state1" } false rfl⟩

/-- C8: every successful Hello response for a valid flow (OAuth, consent or
OIDC — the flows admitted by the request parser) carries the authorization
endpoint URI as continuation URI. -/
theorem hello_success_continue_uri (r : HelloRequest)
    (identifiedUser cookieUser : Option IdentifiedUser) (forwardedUser : String)
    (clientLookup : Except String ClientDetails) (authURI : String)
    (resp : HelloResponse) (cookieRead : Bool)
    (hflow : r.flow = FlowOAuth ∨ r.flow = FlowConsent ∨ r.flow = FlowOIDC)
    (hres : newHelloResponse r identifiedUser cookieUser forwardedUser clientLookup authURI
      = Except.ok (resp, cookieRead))
    (hsucc : resp.success = true) :
    resp.continueURI = authURI := by
  simp only [newHelloResponse] at hres
  split at hres
  · exact absurd hres (by simp)
  · split at hres
    · rename_i hfail
      have h1 : (helloIdentityStage r identifiedUser cookieUser forwardedUser).1 = resp := by
        have := congrArg Prod.fst (Except.ok.inj hres)
        simpa using this
      rw [h1, hsucc] at hfail
      exact absurd hfail (by simp)
    · rcases clientLookup with e | cd
      · exact absurd hres (by simp)
      · have h1 := congrArg (fun q => (Prod.fst q).continueURI) (Except.ok.inj hres)
        simpa using h1.symm

/-- Witness for C8: the concrete OAuth Hello via cookie identity carries the
authorization endpoint as continuation URI. -/
theorem hello_success_continue_uri_witness :
    helloRespOAuth.continueURI = "https://auth.example/authorize" :=
  hello_success_continue_uri helloReqOAuth none (some sampleUser) ""
    (Except.ok sampleClient) "https://auth.example/authorize" helloRespOAuth true
    (Or.inl rfl) (by rfl) rfl

/-! ## Claim theorems: Logon -/

/-- C5 counterexample: a Logon request with a non-empty password but a mode
flag that is not "1", with no cookie and no proxy header, is answered 204
anonymous without any backend delegation — even though the backend (had it
been called) would have reported a transport error that the claim says must
yield a 500. -/
theorem logon_mode_flag_required_cex :
    handleLogon ⟨"state1", ["alice", "secret", ""], none⟩ logonEnvBackendErr
      = Except.ok ⟨LogonOutcome.noContent "state1", false, false⟩ := by rfl

/-- C5 amended: for a Logon request with at least three params, a non-empty
password and the mode flag "1", with no proxy header present (the
passive-cookie branch cannot fire because the password is non-empty), the
handler delegates to the backend Logon; a backend error yields a fatal 500
and a wrong-credentials result (success=false, nil error) yields the
anonymous 204 carrying only the echoed state, with no cookie set. -/
theorem logon_delegates_with_mode_flag (r : LogonRequest) (env : LogonEnv)
    (p0 p1 p2 : String) (rest : List String)
    (hparams : r.params = p0 :: p1 :: p2 :: rest)
    (hp1 : p1 ≠ "") (hp2 : p2 = "1") (hfw : env.forwardedUser = "") :
    (∀ res, handleLogon r env = Except.ok res → res.backendCalled = true)
    ∧ (∀ e, env.backendLogon.err = some e →
        handleLogon r env = Except.ok ⟨LogonOutcome.errorPage 500, true, false⟩)
    ∧ (env.backendLogon.err = none → env.backendLogon.success = false →
        handleLogon r env = Except.ok ⟨LogonOutcome.noContent r.state, true, false⟩) := by
  have hph := logonUserPhase_credentials p0 p1 p2 rest env hp1 hp2 hfw
  refine ⟨?_, ?_, ?_⟩
  · intro res hres
    rw [handleLogon, hparams, hph] at hres
    obtain ⟨ph, hq, hr2⟩ := except_map_eq_ok _ _ _ hres
    rw [hr2, logonFinish_backendCalled]
    rcases he : env.backendLogon.err with _ | e
    · rw [he] at hq
      by_cases hsu : env.backendLogon.success = true
      · rcases hsj : env.backendLogon.subject with _ | sub
        · rw [hsu, hsj] at hq
          exact absurd hq (by simp)
        · rw [hsu, hsj] at hq
          simp only [if_true] at hq
          rw [← Except.ok.inj hq]
      · rw [if_neg hsu] at hq
        rw [← Except.ok.inj hq]
    · rw [he] at hq
      rw [← Except.ok.inj hq]
  · intro e he
    rw [handleLogon, hparams, hph, he]
    rfl
  · intro he hsu
    rw [handleLogon, hparams, hph, he, if_neg (by simp [hsu])]
    rfl

/-- Witness for the amended C5: concrete wrong-credentials logon yields the
anonymous 204 after backend delegation. -/
theorem logon_delegates_with_mode_flag_witness :
    handleLogon ⟨"state1", ["alice", "secret", "1"], none⟩
        { logonEnvBase with backendLogon := { success := false, subject := none, err := none } }
      = Except.ok ⟨LogonOutcome.noContent "state1", true, false⟩ :=
  (logon_delegates_with_mode_flag ⟨"state1", ["alice", "secret", "1"], none⟩
    { logonEnvBase with backendLogon := { success := false, subject := none, err := none } }
    "alice" "secret" "1" [] rfl (by decide) rfl rfl).2.2 rfl rfl

/-- C9 counterexample: a Logon with valid credentials whose nested Hello has
prompts including login but also none is answered with a 400 error page,
not the claimed 204. -/
theorem logon_hello_prompt_none_cex :
    handleLogon ⟨"state1", ["alice", "secret", "1"], some helloReqNoneLogin⟩ logonEnvBase
      = Except.ok ⟨LogonOutcome.errorPage 400, true, false⟩ := by rfl

/-- C9 amended: a Logon with a successful backend credential check whose
nested Hello has prompts including login (and not none) reports hello
failure even for the freshly authenticated user, so the whole Logon responds
204 No Content and no session cookie is minted. -/
theorem logon_hello_prompt_login_no_session (r : LogonRequest) (env : LogonEnv)
    (hr : HelloRequest) (p0 p1 p2 s : String) (rest : List String)
    (hparams : r.params = p0 :: p1 :: p2 :: rest)
    (hp1 : p1 ≠ "") (hp2 : p2 = "1") (hfw : env.forwardedUser = "")
    (hhello : r.hello = some hr) (hparse : env.helloParseOk = true)
    (hlogin : PromptLogin ∈ hr.prompts)
    (hnone : PromptNone ∉ hr.prompts)
    (herr : env.backendLogon.err = none) (hsucc : env.backendLogon.success = true)
    (hsubj : env.backendLogon.subject = some s) :
    handleLogon r env = Except.ok ⟨LogonOutcome.noContent r.state, true, false⟩ := by
  have hph := logonUserPhase_credentials p0 p1 p2 rest env hp1 hp2 hfw
  rw [handleLogon, hparams, hph, herr, if_pos hsucc, hsubj]
  by_cases hs0 : s = ""
  · simp [Except.map, logonFinish, hs0]
  · simp [Except.map, logonFinish, hs0, hhello, hparse, newHelloResponse,
      helloIdentityStage, hnone, hlogin]

/-- Witness for the amended C9 at a concrete request. -/
theorem logon_hello_prompt_login_no_session_witness :
    handleLogon ⟨"state1", ["alice", "secret", "1"], some helloReqLogin⟩ logonEnvBase
      = Except.ok ⟨LogonOutcome.noContent "state1", true, false⟩ :=
  logon_hello_prompt_login_no_session ⟨"state1", ["alice", "secret", "1"], some helloReqLogin⟩
    logonEnvBase helloReqLogin "alice" "secret" "1" "sub1" [] rfl (by decide) rfl rfl rfl rfl
    (by decide) (by decide) rfl rfl rfl

/-- C10: every params index access in the logon handler is guarded, so the
handler never faults for any params array (given a backend that returns a
subject on success), and a request with fewer than three params and no proxy
header falls through to the anonymous 204 carrying only the echoed state. -/
theorem logon_params_access_safe (r : LogonRequest) (env : LogonEnv)
    (hs : env.backendLogon.success = true → env.backendLogon.subject ≠ none) :
    handleLogon r env ≠ Except.error ()
    ∧ (r.params.length < 3 → env.forwardedUser = "" →
        handleLogon r env = Except.ok ⟨LogonOutcome.noContent r.state, false, false⟩) := by
  constructor
  · intro hcontra
    rw [handleLogon] at hcontra
    match hq : logonUserPhase r.params env with
    | Except.error e =>
      cases e
      exact logonUserPhase_no_fault r.params env hs hq
    | Except.ok ph =>
      rw [hq] at hcontra
      simp [Except.map] at hcontra
  · intro hlen hfw
    rw [handleLogon, logonUserPhase_short r.params env hlen hfw]
    rfl

/-- Witness for C10 at a concrete short request. -/
theorem logon_params_access_safe_witness :
    handleLogon ⟨"state1", ["alice"], none⟩ logonEnvBase ≠ Except.error ()
    ∧ handleLogon ⟨"state1", ["alice"], none⟩ logonEnvBase
        = Except.ok ⟨LogonOutcome.noContent "state1", false, false⟩ := by
  have h := logon_params_access_safe ⟨"state1", ["alice"], none⟩ logonEnvBase
    (by intro hh; simp [logonEnvBase])
  exact ⟨h.1, h.2 (by decide) rfl⟩


/-! ## Claim theorems: directory backend -/

/-- C1: the directory backend Logon distinguishes non-match from failure:
success never carries an error; an empty search result, a NoSuchObject
search error, or an invalid-credentials bind on the verified single match
yield success=false with nil error; an ambiguous multi-entry result, a
connect error, and any other search or bind error yield a non-nil error
with success=false (never success=true). -/
theorem logon_error_discipline (b : LDAPIdentifierBackend) (username password : BStr)
    (connectResult : Except LdapErr Unit) (searchResult : Except LdapErr (List LdapEntry))
    (bindResult : Option LdapErr)
    (hattr : lookupMapping b.attributeMapping AttributeLogin ≠ []) :
    C1Prop b username password connectResult searchResult bindResult := by
  simp only [C1Prop]
  refine ⟨?_, ?_, ?_, ?_, ?_, ?_, ?_, ?_⟩
  · intro hsu
    simp only [ldapLogon, searchUsername] at hsu ⊢
    (repeat' split at hsu) <;> simp_all
  · intro h1 h2
    subst h1; subst h2
    simp [ldapLogon, searchUsername, hattr, isErrorWithCode, LDAPResultNoSuchObject]
  · intro e h1 h2 hcode
    subst h1; subst h2
    simp [ldapLogon, searchUsername, hattr, hcode]
  · intro entry be h1 h2 hfold h3 hcode
    subst h1; subst h2; subst h3
    simp [ldapLogon, searchUsername, hattr, hfold, hcode]
  · intro e1 e2 rest h1 h2
    subst h1; subst h2
    simp [ldapLogon, searchUsername, hattr, isErrorWithCode]
  · intro e h1
    subst h1
    simp [ldapLogon, hattr]
  · intro e h1 h2 hcode
    subst h1; subst h2
    simp [ldapLogon, searchUsername, hattr, hcode]
  · intro entry be h1 h2 h3 hcode
    subst h1; subst h2; subst h3
    by_cases hfold : eqFoldB (entry.getAttributeValue
        (lookupMapping b.attributeMapping AttributeLogin)) username = false <;>
      simp_all [ldapLogon, searchUsername, hattr, hcode]

/-- Witness for C1 at a concrete backend with the default login attribute. -/
theorem logon_error_discipline_witness :
    lookupMapping ldapBackendPlain.attributeMapping AttributeLogin ≠ []
    ∧ C1Prop ldapBackendPlain [97] [1] (Except.ok ()) (Except.ok []) none :=
  ⟨by decide, logon_error_discipline ldapBackendPlain [97] [1] (Except.ok ())
    (Except.ok []) none (by decide)⟩

/-! ## Entry-ID encoding round trip (ldap.go) -/

theorem unhexDigit_upperHexDigit (n : Nat) (h : n < 16) :
    unhexDigit (upperHexDigit n) = some n := by
  interval_cases n <;> decide

theorem upperHexDigit_val_props (n : Nat) (h : n < 16) :
    (upperHexDigit n).val ≠ 38 ∧ (upperHexDigit n).val ≠ 59 ∧ (upperHexDigit n).val ≠ 61 := by
  interval_cases n <;> decide

theorem isUnreservedByte_val_props (b : Byte) (h : isUnreservedByte b = true) :
    b.val ≠ 32 ∧ b.val ≠ 37 ∧ b.val ≠ 43 ∧ b.val ≠ 38 ∧ b.val ≠ 59 ∧ b.val ≠ 61 := by
  unfold isUnreservedByte isAlphaNumByte at h
  simp only [Bool.or_eq_true, Bool.and_eq_true, decide_eq_true_eq, beq_iff_eq] at h
  omega

theorem mem_queryEscapeByte_props (b c : Byte) (hc : c ∈ queryEscapeByte b) :
    c.val ≠ 38 ∧ c.val ≠ 59 ∧ c.val ≠ 61 := by
  by_cases h1 : b.val = 32
  · rw [queryEscapeByte, if_pos h1] at hc
    simp only [List.mem_singleton] at hc
    subst hc
    exact ⟨by decide, by decide, by decide⟩
  · by_cases h2 : isUnreservedByte b = true
    · rw [queryEscapeByte, if_neg h1, if_pos h2] at hc
      simp only [List.mem_singleton] at hc
      have hp := isUnreservedByte_val_props b h2
      rw [hc]
      exact ⟨hp.2.2.2.1, hp.2.2.2.2.1, hp.2.2.2.2.2⟩
    · rw [queryEscapeByte, if_neg h1, if_neg h2] at hc
      simp only [List.mem_cons, List.not_mem_nil, or_false] at hc
      rcases hc with hc | hc | hc
      · subst hc; exact ⟨by decide, by decide, by decide⟩
      · subst hc; exact upperHexDigit_val_props (b.val / 16) (by omega)
      · subst hc; exact upperHexDigit_val_props (b.val % 16) (by omega)

theorem mem_queryEscape_props (s : BStr) (c : Byte) (hc : c ∈ queryEscape s) :
    c.val ≠ 38 ∧ c.val ≠ 59 ∧ c.val ≠ 61 := by
  induction s with
  | nil => simp [queryEscape] at hc
  | cons b rest ih =>
    rw [queryEscape] at hc
    rcases List.mem_append.mp hc with hm | hm
    · exact mem_queryEscapeByte_props b c hm
    · exact ih hm

theorem queryUnescape_pass (b : Byte) (t : BStr) (h37 : b.val ≠ 37) (h43 : b.val ≠ 43) :
    queryUnescape (b :: t) =
      match queryUnescape t with
      | some u => some (b :: u)
      | none => none := by
  match t with
  | [] => simp [queryUnescape, h37, h43]
  | [x] => simp [queryUnescape, h37, h43]
  | x :: y :: t2 => simp [queryUnescape, h37, h43]

theorem queryUnescape_plus (t : BStr) :
    queryUnescape (((43 : Byte)) :: t) =
      match queryUnescape t with
      | some u => some (⟨32, by omega⟩ :: u)
      | none => none := by
  have hv : ((43 : Byte)).val = 43 := rfl
  match t with
  | [] => simp [queryUnescape, hv]
  | [x] => simp [queryUnescape, hv]
  | x :: y :: t2 => simp [queryUnescape, hv]

theorem queryUnescape_esc (x y : Byte) (t : BStr) :
    queryUnescape (((37 : Byte)) :: x :: y :: t) =
      match unhexDigit x, unhexDigit y with
      | some hi, some lo =>
        (match queryUnescape t with
         | some u => some (⟨(hi * 16 + lo) % 256, by omega⟩ :: u)
         | none => none)
      | _, _ => none := by
  have hv : ((37 : Byte)).val = 37 := rfl
  simp [queryUnescape, hv]

theorem queryUnescape_queryEscapeByte (b : Byte) (t : BStr) :
    queryUnescape (queryEscapeByte b ++ t) =
      match queryUnescape t with
      | some u => some (b :: u)
      | none => none := by
  by_cases h1 : b.val = 32
  · rw [queryEscapeByte, if_pos h1]
    show queryUnescape (((43 : Byte)) :: t) = _
    rw [queryUnescape_plus]
    have hb : (⟨32, by omega⟩ : Byte) = b := (Fin.ext h1).symm
    rw [hb]
  · by_cases h2 : isUnreservedByte b = true
    · rw [queryEscapeByte, if_neg h1, if_pos h2]
      have hp := isUnreservedByte_val_props b h2
      show queryUnescape (b :: t) = _
      exact queryUnescape_pass b t hp.2.1 hp.2.2.1
    · rw [queryEscapeByte, if_neg h1, if_neg h2]
      show queryUnescape (((37 : Byte)) :: upperHexDigit (b.val / 16) :: upperHexDigit (b.val % 16) :: t) = _
      rw [queryUnescape_esc]
      simp only [unhexDigit_upperHexDigit (b.val / 16) (by omega),
        unhexDigit_upperHexDigit (b.val % 16) (by omega)]
      have hb : (⟨(b.val / 16 * 16 + b.val % 16) % 256, by omega⟩ : Byte) = b := by
        apply Fin.ext
        show (b.val / 16 * 16 + b.val % 16) % 256 = b.val
        have := b.isLt
        omega
      rw [hb]

theorem queryUnescape_append_queryEscape (s t : BStr) :
    queryUnescape (queryEscape s ++ t) =
      match queryUnescape t with
      | some u => some (s ++ u)
      | none => none := by
  induction s generalizing t with
  | nil =>
    rw [queryEscape, List.nil_append]
    cases hqt : queryUnescape t <;> simp
  | cons b rest ih =>
    rw [queryEscape, List.append_assoc, queryUnescape_queryEscapeByte, ih]
    cases hqt : queryUnescape t <;> simp

theorem queryUnescape_queryEscape (s : BStr) : queryUnescape (queryEscape s) = some s := by
  have h := queryUnescape_append_queryEscape s []
  rw [List.append_nil] at h
  rw [h]
  simp [queryUnescape]

theorem splitSegs_noSep (s : BStr) (h : ∀ c ∈ s, isSepByte c = false) (hne : s ≠ []) :
    splitSegs s = [s] := by
  induction s with
  | nil => exact absurd rfl hne
  | cons b rest ih =>
    have hb : isSepByte b = false := h b (List.mem_cons_self b rest)
    by_cases hr : rest = []
    · subst hr
      simp [splitSegs, hb]
    · have ihh := ih (fun c hc => h c (List.mem_cons_of_mem b hc)) hr
      simp [splitSegs, hb, ihh]

theorem splitSegs_append (s t : BStr) (h : ∀ c ∈ s, isSepByte c = false) :
    splitSegs (s ++ ((38 : Byte)) :: t) = s :: splitSegs t := by
  induction s with
  | nil =>
    have h38 : isSepByte 38 = true := rfl
    simp [splitSegs, h38]
  | cons b rest ih =>
    have hb : isSepByte b = false := h b (List.mem_cons_self b rest)
    have ihh := ih (fun c hc => h c (List.mem_cons_of_mem b hc))
    simp [splitSegs, hb, ihh]

theorem mem_encodeSeg_noSep (p : BStr × BStr) (c : Byte) (hc : c ∈ encodeSeg p) :
    isSepByte c = false := by
  rw [encodeSeg] at hc
  rcases List.mem_append.mp hc with hm | hm
  · have hp := mem_queryEscape_props p.1 c hm
    simp [isSepByte]
    omega
  · rcases List.mem_cons.mp hm with hm | hm
    · subst hm
      rfl
    · have hp := mem_queryEscape_props p.2 c hm
      simp [isSepByte]
      omega

theorem encodeSeg_ne_nil (p : BStr × BStr) : encodeSeg p ≠ [] := by
  simp [encodeSeg]

theorem splitSegs_encodePairs (ps : List (BStr × BStr)) :
    splitSegs (encodePairs ps) = ps.map encodeSeg := by
  induction ps with
  | nil => simp [encodePairs, splitSegs]
  | cons p rest ih =>
    match rest with
    | [] =>
      rw [encodePairs]
      rw [splitSegs_noSep (encodeSeg p) (mem_encodeSeg_noSep p) (encodeSeg_ne_nil p)]
      rfl
    | q :: rest2 =>
      rw [encodePairs, splitSegs_append (encodeSeg p) (encodePairs (q :: rest2)) (mem_encodeSeg_noSep p)]
      rw [ih]
      rfl

theorem splitEq_append (k v : BStr) (hk : ∀ c ∈ k, c.val ≠ 61) :
    splitEq (k ++ ((61 : Byte)) :: v) = (k, v) := by
  induction k with
  | nil =>
    have hv : ((61 : Byte)).val = 61 := rfl
    simp [splitEq, hv]
  | cons b bs ih =>
    have hb : b.val ≠ 61 := hk b (List.mem_cons_self b bs)
    have ihh := ih (fun c hc => hk c (List.mem_cons_of_mem b hc))
    simp [splitEq, hb, ihh]

theorem parsePairs_map_encodeSeg (ps : List (BStr × BStr)) :
    parsePairs (ps.map encodeSeg) = some ps := by
  induction ps with
  | nil => rfl
  | cons p rest ih =>
    have hsplit : splitEq (encodeSeg p) = (queryEscape p.1, queryEscape p.2) := by
      rw [encodeSeg]
      exact splitEq_append (queryEscape p.1) (queryEscape p.2)
        (fun c hc => (mem_queryEscape_props p.1 c hc).2.2)
    rw [List.map_cons, parsePairs]
    rw [if_neg (encodeSeg_ne_nil p)]
    simp [hsplit, queryUnescape_queryEscape, ih]

theorem parseQuery_encodePairs (ps : List (BStr × BStr)) :
    parseQuery (encodePairs ps) = some ps := by
  rw [parseQuery, splitSegs_encodePairs, parsePairs_map_encodeSeg]

theorem mmLookup_append (xs ys : List (BStr × BStr)) (k : BStr) :
    mmLookup (xs ++ ys) k = mmLookup xs k ++ mmLookup ys k := by
  simp [mmLookup, List.filter_append]

theorem mmLookup_block (k0 k : BStr) (l : List BStr) :
    mmLookup (l.map (fun v => (k0, v))) k = if k0 = k then l else [] := by
  induction l with
  | nil => simp [mmLookup]
  | cons v vs ih =>
    by_cases hk : k0 = k <;>
      simp only [mmLookup, List.map_cons, List.filter_cons, decide_eq_true_eq, hk,
        if_true, if_false, List.map] at ih ⊢ <;>
      simp_all

theorem mmLookup_pairsOfKeys (f : BStr → List BStr) (ks : List BStr) (k : BStr)
    (hnd : ks.Nodup) :
    mmLookup (pairsOfKeys f ks) k = if k ∈ ks then f k else [] := by
  induction ks with
  | nil => simp [pairsOfKeys, mmLookup]
  | cons k0 ks ih =>
    have hk0 : k0 ∉ ks := (List.nodup_cons.mp hnd).1
    have hnd2 : ks.Nodup := (List.nodup_cons.mp hnd).2
    rw [pairsOfKeys, mmLookup_append, mmLookup_block, ih hnd2]
    by_cases hk : k0 = k
    · subst hk
      rw [if_pos rfl, if_neg hk0, if_pos (List.mem_cons_self k0 ks)]
      simp
    · rw [if_neg hk]
      by_cases hm : k ∈ ks
      · rw [if_pos hm, if_pos (List.mem_cons_of_mem k0 hm)]
        simp
      · rw [if_neg hm, if_neg (by
          simp only [List.mem_cons]
          rintro (h1 | h1)
          · exact hk h1.symm
          · exact hm h1)]
        simp

theorem sortedEntryKeys_nodup (mapping : List BStr) (e : LdapEntry) :
    (sortedEntryKeys mapping e).Nodup := by
  rw [sortedEntryKeys]
  exact ((List.perm_insertionSort bstrLe _).nodup_iff).mpr
    (List.nodup_dedup _)

theorem mem_sortedEntryKeys (mapping : List BStr) (e : LdapEntry) (k : BStr) :
    k ∈ sortedEntryKeys mapping e ↔ k ∈ mapping ∧ e.getAttributeValues k ≠ [] := by
  rw [sortedEntryKeys]
  rw [(List.perm_insertionSort bstrLe _).mem_iff, List.mem_dedup, List.mem_filter]
  simp

theorem pairsOfKeys_ne_nil (f : BStr → List BStr) (ks : List BStr) (k0 : BStr)
    (hk : k0 ∈ ks) (hv : f k0 ≠ []) : pairsOfKeys f ks ≠ [] := by
  induction ks with
  | nil => simp at hk
  | cons k ks ih =>
    rw [pairsOfKeys]
    rcases List.mem_cons.mp hk with hk1 | hk1
    · subst hk1
      simp [hv]
    · simp [ih hk1]

theorem foldl_eqTerms (ps : List (BStr × BStr)) (init : BStr) :
    ps.foldl (fun acc p => acc ++ (40 :: (p.1 ++ 61 :: (p.2 ++ [41])))) init
      = init ++ eqTerms ps := by
  induction ps generalizing init with
  | nil => simp [eqTerms]
  | cons p rest ih => simp [List.foldl_cons, eqTerms, ih, List.append_assoc]

theorem eqTerms_ne_nil (ps : List (BStr × BStr)) (h : ps ≠ []) : eqTerms ps ≠ [] := by
  match ps with
  | [] => exact absurd rfl h
  | p :: rest => simp [eqTerms]

/-- C4: in sub-attribute-mapping mode, for every entry with at least one
value for at least one mapped attribute, parsing the encoded subject ID
recovers exactly the serialised pairs, those pairs read back as the
original attribute-to-values multimap, and the get-filter construction
conjoins the configured get-filter with one equality term per encoded
attribute value over the configured base. -/
theorem entry_id_roundtrip (b : LDAPIdentifierBackend) (mapping : List BStr) (e : LdapEntry)
    (hmap : b.entryIDMapping = some mapping)
    (hne : ∃ k, k ∈ mapping ∧ e.getAttributeValues k ≠ []) : C4Prop b mapping e := by
  obtain ⟨k0, hk0m, hk0v⟩ := hne
  have hid : entryIDFromEntry b e = encodePairs (entryIDPairs mapping e) := by
    rw [entryIDFromEntry, hmap]
  have hparse : parseQuery (entryIDFromEntry b e) = some (entryIDPairs mapping e) := by
    rw [hid, parseQuery_encodePairs]
  refine ⟨hparse, ?_, ?_⟩
  · intro k
    rw [entryIDPairs,
      mmLookup_pairsOfKeys _ _ k (sortedEntryKeys_nodup mapping e)]
    by_cases hk : k ∈ mapping ∧ e.getAttributeValues k ≠ []
    · rw [if_pos ((mem_sortedEntryKeys mapping e k).mpr hk), if_pos hk]
    · rw [if_neg (fun hmem => hk ((mem_sortedEntryKeys mapping e k).mp hmem)), if_neg hk]
  · have hpairs_ne : entryIDPairs mapping e ≠ [] := by
      rw [entryIDPairs]
      exact pairsOfKeys_ne_nil _ _ k0
        ((mem_sortedEntryKeys mapping e k0).mpr ⟨hk0m, hk0v⟩) hk0v
    rw [baseAndGetFilterFromEntryID, hmap]
    simp only [hparse, foldl_eqTerms, List.nil_append]
    rw [if_neg (eqTerms_ne_nil _ hpairs_ne)]


/-- Witness for C4 at a concrete mapped backend and entry. -/
theorem entry_id_roundtrip_witness :
    ldapBackendMapped.entryIDMapping = some [AttributeLogin]
    ∧ (∃ k, k ∈ [AttributeLogin] ∧ sampleEntry.getAttributeValues k ≠ [])
    ∧ C4Prop ldapBackendMapped [AttributeLogin] sampleEntry :=
  ⟨rfl, by decide, entry_id_roundtrip ldapBackendMapped [AttributeLogin] sampleEntry rfl
    (by decide)⟩

end Lico
